import Mathlib

/-!
Verification of the checkout (purchase) core of the cart service.

The development shallowly embeds `src/routes/carts.router.js`, in particular
the `POST /:cid/purchase` handler and its helper `generateUniqueCode`.
Mongoose documents become plain structures; the three Mongo collections
(products, carts, tickets) become lists inside a `Store`; `product.save()`
and `cart.save()` become functional updates of that store; the `try/catch`
around the handler body becomes an `Except` value, whose `error` payload
carries the state at the moment of the throw (earlier `save()` calls have
already persisted).  `Math.random()` is modelled by a rational draw in
`[0, 1)` passed to `purchase`, and `new Date()` by a `now : Nat` argument.
-/

/-- A product document: `_id`, `price`, `stock`. -/
structure Product where
  id : Nat
  price : ℚ
  stock : Int
deriving Repr, DecidableEq

/-- A cart line item: a product reference and a quantity. -/
structure CartItem where
  product : Nat
  quantity : Int
deriving Repr, DecidableEq

/-- A cart document: `_id`, optional owning user, line items. -/
structure Cart where
  id : Nat
  user : Option Nat
  products : List CartItem
deriving Repr, DecidableEq

/-- A ticket line item: `{product, quantity, price}`. -/
structure TicketItem where
  product : Nat
  quantity : Int
  price : ℚ
deriving Repr, DecidableEq

/-- A ticket document as built by `Ticket.create`. -/
structure Ticket where
  code : String
  user : Nat
  products : List TicketItem
  total : ℚ
  createdAt : Nat
deriving Repr, DecidableEq

/-- The persistent state: the three collections. -/
structure Store where
  products : List Product
  carts : List Cart
  tickets : List Ticket
deriving Repr, DecidableEq

/-- `Product.findById` / what `populate("products.product")` resolves a
reference to: `none` models a dangling reference (a `null` product). -/
def findProduct (ps : List Product) (pid : Nat) : Option Product :=
  ps.find? (fun p => p.id == pid)

/-- `product.save()` after `product.stock -= quantity`: persist the new stock
on the document(s) with this `_id`. -/
def updateStock (ps : List Product) (pid : Nat) (newStock : Int) : List Product :=
  ps.map (fun p => if p.id == pid then { p with stock := newStock } else p)

/-- The mutable locals of the reservation loop: the product collection as
mutated so far, `totalAmount`, `productsProcessed` (already shaped as ticket
line items, since only `stock` is ever mutated the price recorded here equals
the price read when the ticket is built) and `productsNotProcessed`. -/
structure LoopState where
  products : List Product
  totalAmount : ℚ
  productsProcessed : List TicketItem
  productsNotProcessed : List Nat
deriving Repr, DecidableEq

/-- One iteration of `for (let item of cart.products)`:
`if (product && product.stock >= item.quantity)` reserves (decrement, save,
accumulate total, push to processed); otherwise
`productsNotProcessed.push(product._id)` — which, when the reference resolved
to `null`, throws a `TypeError` (modelled as `error` carrying the state at the
throw; previous saves are already persisted). -/
def reserveStep (st : LoopState) (item : CartItem) : Except LoopState LoopState :=
  match findProduct st.products item.product with
  | some product =>
      if product.stock ≥ item.quantity then
        .ok { products := updateStock st.products product.id (product.stock - item.quantity)
              totalAmount := st.totalAmount + product.price * (item.quantity : ℚ)
              productsProcessed :=
                st.productsProcessed ++ [⟨product.id, item.quantity, product.price⟩]
              productsNotProcessed := st.productsNotProcessed }
      else
        .ok { st with productsNotProcessed := st.productsNotProcessed ++ [product.id] }
  | none => .error st

/-- The loop state after a successful reservation of `item` against the
product snapshot `q`: stock decremented and saved, total accumulated, item
recorded as processed. -/
def successState (st : LoopState) (item : CartItem) (q : Product) : LoopState :=
  { products := updateStock st.products q.id (q.stock - item.quantity)
    totalAmount := st.totalAmount + q.price * (item.quantity : ℚ)
    productsProcessed := st.productsProcessed ++ [⟨q.id, item.quantity, q.price⟩]
    productsNotProcessed := st.productsNotProcessed }

/-- The whole reservation loop over the cart's line items. -/
def processItems (st : LoopState) : List CartItem → Except LoopState LoopState
  | [] => .ok st
  | item :: rest =>
      match reserveStep st item with
      | .ok st' => processItems st' rest
      | .error st' => .error st'

/-- The loop state an execution ends in, whether it completed or threw. -/
def resultState : Except LoopState LoopState → LoopState
  | .ok st => st
  | .error st => st

/-- Base-36 digit characters, as produced by `Number.prototype.toString(36)`. -/
def base36Char (d : Nat) : Char :=
  if d < 10 then Char.ofNat (48 + d) else Char.ofNat (87 + d)

/-- The first `n` base-36 fractional digits of a rational in `[0, 1)`. -/
def fracBase36Digits : ℚ → Nat → List Nat
  | _, 0 => []
  | x, n + 1 =>
      let d := (x * 36).floor
      d.toNat :: fracBase36Digits (x * 36 - (d : ℚ)) n

/-- `Math.random().toString(36).substr(2, 9).toUpperCase()` for the random
draw `rand`: the nine base-36 fractional digits, uppercased.  A pure function
of the draw — no collision check against existing codes. -/
def generateUniqueCode (rand : ℚ) : String :=
  ((fracBase36Digits rand 9).map (fun d => (base36Char d).toUpper)).asString

/-- The four observable outcomes of `POST /:cid/purchase`: 404, 400, 500 and
200 with the ticket and the not-processed list. -/
inductive PurchaseResult where
  | cartNotFound
  | noAssociatedUser
  | serverError
  | ok (ticket : Ticket) (productsNotProcessed : List Nat)
deriving Repr, DecidableEq

/-- The `POST /:cid/purchase` handler.  Returns the response together with the
store as left behind (mutations persisted by `save()` calls survive even when
the handler ends in the 500 branch). -/
def purchase (s : Store) (cid : Nat) (rand : ℚ) (now : Nat) : PurchaseResult × Store :=
  match s.carts.find? (fun c => c.id == cid) with
  | none => (.cartNotFound, s)
  | some cart =>
      match cart.user with
      | none => (.noAssociatedUser, s)
      | some user =>
          match processItems ⟨s.products, 0, [], []⟩ cart.products with
          | .error st => (.serverError, { s with products := st.products })
          | .ok st =>
              let ticket : Ticket :=
                { code := generateUniqueCode rand
                  user := user
                  products := st.productsProcessed
                  total := st.totalAmount
                  createdAt := now }
              let residual :=
                cart.products.filter (fun item => st.productsNotProcessed.contains item.product)
              (.ok ticket st.productsNotProcessed,
                { products := st.products
                  carts := s.carts.map
                    (fun c => if c.id == cid then { c with products := residual } else c)
                  tickets := s.tickets ++ [ticket] })

/-- Quantity reserved for product `pid` among recorded reservations. -/
def sumQtyFor (ts : List TicketItem) (pid : Nat) : Int :=
  ((ts.filter (fun t => t.product == pid)).map (fun t => t.quantity)).sum

/-- The exact sum of `quantity × price` over a list of ticket line items. -/
def ticketSum (ts : List TicketItem) : ℚ :=
  (ts.map (fun t => t.price * (t.quantity : ℚ))).sum

/-! ### Basic lemmas about the store operations -/

theorem findProduct_id {ps : List Product} {pid : Nat} {q : Product}
    (h : findProduct ps pid = some q) : q.id = pid := by
  have := List.find?_some h
  simpa using this

theorem findProduct_updateStock (ps : List Product) (pid' : Nat) (v : Int) (pid : Nat) :
    findProduct (updateStock ps pid' v) pid
      = (findProduct ps pid).map
          (fun p => if p.id == pid' then { p with stock := v } else p) := by
  unfold findProduct updateStock
  rw [List.find?_map]
  have hc : ((fun p : Product => p.id == pid) ∘
      fun p : Product => if p.id == pid' then { p with stock := v } else p)
        = fun p : Product => p.id == pid := by
    funext p
    by_cases hb : p.id = pid'
    · simp [Function.comp, hb]
    · simp [Function.comp, hb]
  rw [hc]

theorem findProduct_updateStock_self {ps : List Product} {pid : Nat} {q : Product}
    (h : findProduct ps pid = some q) (v : Int) :
    findProduct (updateStock ps pid v) pid = some { q with stock := v } := by
  rw [findProduct_updateStock, h]
  simp [findProduct_id h]

theorem findProduct_updateStock_other {ps : List Product} {pid pid' : Nat}
    (hne : pid' ≠ pid) (v : Int) :
    findProduct (updateStock ps pid' v) pid = findProduct ps pid := by
  rw [findProduct_updateStock]
  cases hf : findProduct ps pid with
  | none => rfl
  | some q =>
      have hq : q.id = pid := findProduct_id hf
      simp [hq, hne.symm]

/-! ### Equations for one loop iteration -/

theorem reserveStep_success {st : LoopState} {item : CartItem} {q : Product}
    (h : findProduct st.products item.product = some q)
    (hs : item.quantity ≤ q.stock) :
    reserveStep st item = .ok (successState st item q) := by
  simp [reserveStep, successState, h, hs, ge_iff_le]

theorem reserveStep_fail {st : LoopState} {item : CartItem} {q : Product}
    (h : findProduct st.products item.product = some q)
    (hs : ¬ item.quantity ≤ q.stock) :
    reserveStep st item =
      .ok { st with productsNotProcessed := st.productsNotProcessed ++ [q.id] } := by
  simp [reserveStep, h, hs, ge_iff_le]

theorem reserveStep_missing {st : LoopState} {item : CartItem}
    (h : findProduct st.products item.product = none) :
    reserveStep st item = .error st := by
  simp [reserveStep, h]

/-! ### Lemmas about `sumQtyFor` and `ticketSum` -/

theorem sumQtyFor_append_single (A : List TicketItem) (t : TicketItem) (pid : Nat) :
    sumQtyFor (A ++ [t]) pid
      = sumQtyFor A pid + (if t.product = pid then t.quantity else 0) := by
  by_cases hb : t.product = pid
  · simp [sumQtyFor, List.filter_append, hb]
  · simp [sumQtyFor, List.filter_append, hb]

theorem ticketSum_append_single (A : List TicketItem) (t : TicketItem) :
    ticketSum (A ++ [t]) = ticketSum A + t.price * (t.quantity : ℚ) := by
  simp [ticketSum]

/-! ### The reservation loop: exact stock accounting -/

theorem processItems_stock (items : List CartItem) :
    ∀ (st : LoopState) (pid : Nat) (p : Product),
      findProduct st.products pid = some p →
      findProduct (resultState (processItems st items)).products pid
        = some { p with stock := p.stock -
            (sumQtyFor (resultState (processItems st items)).productsProcessed pid
              - sumQtyFor st.productsProcessed pid) } := by
  induction items with
  | nil =>
      intro st pid p h
      simp only [processItems, resultState]
      rw [h]
      cases p
      simp
  | cons item rest ih =>
      intro st pid p h
      cases hq : findProduct st.products item.product with
      | none =>
          rw [show processItems st (item :: rest) = .error st by
            simp [processItems, reserveStep_missing hq]]
          simp only [resultState]
          rw [h]
          cases p
          simp
      | some q =>
          have hqid : q.id = item.product := findProduct_id hq
          have hq' : findProduct st.products q.id = some q := by rw [hqid]; exact hq
          by_cases hqs : item.quantity ≤ q.stock
          · -- reservation succeeds
            rw [show processItems st (item :: rest)
                = processItems (successState st item q) rest by
              simp [processItems, reserveStep_success hq hqs]]
            by_cases hpid : q.id = pid
            · -- the looked-up product is the reserved one
              have hpq : p = q := by
                rw [← hpid] at h
                exact Option.some.inj (h.symm.trans hq')
              have h1 : findProduct (successState st item q).products pid
                  = some { p with stock := p.stock - item.quantity } := by
                show findProduct (updateStock st.products q.id (q.stock - item.quantity)) pid
                  = some { p with stock := p.stock - item.quantity }
                rw [← hpid, hpq]
                exact findProduct_updateStock_self hq' _
              have hfin := ih (successState st item q) pid _ h1
              rw [hfin]
              have hproc : (successState st item q).productsProcessed
                  = st.productsProcessed ++ [⟨q.id, item.quantity, q.price⟩] := rfl
              rw [hproc, sumQtyFor_append_single]
              simp only [hpid, if_pos]
              congr 1
              cases p
              simp only [Product.mk.injEq]
              refine ⟨trivial, trivial, by ring⟩
            · -- a different product: untouched by this step
              have h1 : findProduct (successState st item q).products pid = some p := by
                show findProduct (updateStock st.products q.id (q.stock - item.quantity)) pid
                  = some p
                rw [findProduct_updateStock_other hpid _]
                exact h
              have hfin := ih (successState st item q) pid _ h1
              rw [hfin]
              have hproc : (successState st item q).productsProcessed
                  = st.productsProcessed ++ [⟨q.id, item.quantity, q.price⟩] := rfl
              rw [hproc, sumQtyFor_append_single]
              simp [hpid]
          · -- reservation fails: nothing changes except the not-processed list
            rw [show processItems st (item :: rest)
                = processItems { st with
                    productsNotProcessed := st.productsNotProcessed ++ [q.id] } rest by
              simp [processItems, reserveStep_fail hq hqs]]
            exact ih _ pid _ h

/-! ### The reservation loop: the running total tracks the processed items -/

theorem processItems_total (items : List CartItem) :
    ∀ st : LoopState,
      (resultState (processItems st items)).totalAmount
          - ticketSum (resultState (processItems st items)).productsProcessed
        = st.totalAmount - ticketSum st.productsProcessed := by
  induction items with
  | nil => intro st; simp [processItems, resultState]
  | cons item rest ih =>
      intro st
      cases hq : findProduct st.products item.product with
      | none =>
          rw [show processItems st (item :: rest) = .error st by
            simp [processItems, reserveStep_missing hq]]
          simp [resultState]
      | some q =>
          by_cases hqs : item.quantity ≤ q.stock
          · rw [show processItems st (item :: rest)
                = processItems (successState st item q) rest by
              simp [processItems, reserveStep_success hq hqs]]
            rw [ih]
            have hproc : (successState st item q).productsProcessed
                = st.productsProcessed ++ [⟨q.id, item.quantity, q.price⟩] := rfl
            have htot : (successState st item q).totalAmount
                = st.totalAmount + q.price * (item.quantity : ℚ) := rfl
            rw [hproc, htot, ticketSum_append_single]
            ring
          · rw [show processItems st (item :: rest)
                = processItems { st with
                    productsNotProcessed := st.productsNotProcessed ++ [q.id] } rest by
              simp [processItems, reserveStep_fail hq hqs]]
            exact ih _

/-! ### The reservation loop: stocks never become negative -/

theorem reserveStep_nonneg {st : LoopState} {item : CartItem}
    (h0 : ∀ p ∈ st.products, 0 ≤ p.stock) :
    ∀ p ∈ (resultState (reserveStep st item)).products, 0 ≤ p.stock := by
  cases hq : findProduct st.products item.product with
  | none => rw [reserveStep_missing hq]; exact h0
  | some q =>
      by_cases hqs : item.quantity ≤ q.stock
      · rw [reserveStep_success hq hqs]
        intro p hp
        simp only [resultState, successState, updateStock, List.mem_map] at hp
        obtain ⟨p₀, hp₀, rfl⟩ := hp
        by_cases hb : p₀.id = q.id
        · simp only [hb, beq_self_eq_true, if_true]
          simpa using hqs
        · simp only [beq_eq_false_iff_ne, ne_eq, hb, not_false_eq_true, if_neg,
            beq_iff_eq]
          exact h0 p₀ hp₀
      · rw [reserveStep_fail hq hqs]
        exact h0

theorem processItems_nonneg (items : List CartItem) :
    ∀ st : LoopState, (∀ p ∈ st.products, 0 ≤ p.stock) →
      ∀ p ∈ (resultState (processItems st items)).products, 0 ≤ p.stock := by
  induction items with
  | nil => intro st h0; simpa [processItems, resultState] using h0
  | cons item rest ih =>
      intro st h0
      cases hr : reserveStep st item with
      | ok st₁ =>
          rw [show processItems st (item :: rest) = processItems st₁ rest by
            simp [processItems, hr]]
          exact ih st₁ (by simpa [hr, resultState] using @reserveStep_nonneg st item h0)
      | error st₁ =>
          rw [show processItems st (item :: rest) = .error st₁ by
            simp [processItems, hr]]
          simpa [hr, resultState] using @reserveStep_nonneg st item h0

/-! ### The reservation loop never touches products outside the cart -/

theorem processItems_untouched (items : List CartItem) :
    ∀ (st : LoopState) (pid : Nat), pid ∉ items.map (fun i => i.product) →
      findProduct (resultState (processItems st items)).products pid
        = findProduct st.products pid := by
  induction items with
  | nil => intro st pid _; simp [processItems, resultState]
  | cons item rest ih =>
      intro st pid hpid
      simp only [List.map_cons, List.mem_cons, not_or] at hpid
      obtain ⟨hne, hrest⟩ := hpid
      cases hq : findProduct st.products item.product with
      | none =>
          rw [show processItems st (item :: rest) = .error st by
            simp [processItems, reserveStep_missing hq]]
          simp [resultState]
      | some q =>
          have hqid : q.id = item.product := findProduct_id hq
          by_cases hqs : item.quantity ≤ q.stock
          · rw [show processItems st (item :: rest)
                = processItems (successState st item q) rest by
              simp [processItems, reserveStep_success hq hqs]]
            rw [ih _ pid (by simpa using hrest)]
            show findProduct (updateStock st.products q.id (q.stock - item.quantity)) pid
              = findProduct st.products pid
            rw [findProduct_updateStock_other (by rw [hqid]; exact fun e => hne e.symm) _]
          · rw [show processItems st (item :: rest)
                = processItems { st with
                    productsNotProcessed := st.productsNotProcessed ++ [q.id] } rest by
              simp [processItems, reserveStep_fail hq hqs]]
            exact ih _ pid (by simpa using hrest)

/-! ### The reservation loop partitions the line items -/

theorem processItems_partition (items : List CartItem) :
    ∀ (st st' : LoopState), processItems st items = .ok st' →
      ∃ δP δN,
        st'.productsProcessed = st.productsProcessed ++ δP ∧
        st'.productsNotProcessed = st.productsNotProcessed ++ δN ∧
        (∀ pid ∈ δN, pid ∈ items.map (fun i => i.product)) ∧
        ((items.map (fun i => i.product)).Nodup →
          δP.map (fun t => (t.product, t.quantity))
            = (items.filter (fun i => !(δN.contains i.product))).map
                (fun i => (i.product, i.quantity))) := by
  induction items with
  | nil =>
      intro st st' h
      have h' : st = st' := by simpa [processItems] using h
      subst h'
      exact ⟨[], [], by simp, by simp, by simp, by simp⟩
  | cons item rest ih =>
      intro st st' h
      cases hq : findProduct st.products item.product with
      | none =>
          rw [show processItems st (item :: rest) = .error st by
            simp [processItems, reserveStep_missing hq]] at h
          simp at h
      | some q =>
          have hqid : q.id = item.product := findProduct_id hq
          by_cases hqs : item.quantity ≤ q.stock
          · -- item reserved: it heads the processed delta
            rw [show processItems st (item :: rest)
                = processItems (successState st item q) rest by
              simp [processItems, reserveStep_success hq hqs]] at h
            obtain ⟨δP, δN, hP, hN, hmem, hchar⟩ := ih _ _ h
            refine ⟨⟨q.id, item.quantity, q.price⟩ :: δP, δN, ?_, ?_, ?_, ?_⟩
            · rw [hP]
              show st.productsProcessed ++ [⟨q.id, item.quantity, q.price⟩] ++ δP = _
              simp
            · rw [hN]; rfl
            · intro pid hpid
              simpa using Or.inr (by simpa using hmem pid hpid)
            · intro hnd
              simp only [List.map_cons, List.nodup_cons] at hnd
              obtain ⟨hnd1, hnd2⟩ := hnd
              have hni' : item.product ∉ δN := fun hmemN =>
                hnd1 (by simpa using hmem _ hmemN)
              have hni : δN.contains item.product = false := by
                cases hcon : δN.contains item.product
                · rfl
                · exact absurd (List.elem_iff.mp hcon) hni'
              rw [List.filter_cons_of_pos (by simp only [hni, Bool.not_false])]
              simp only [List.map_cons]
              rw [hchar hnd2, hqid]
          · -- item rejected: it heads the not-processed delta
            rw [show processItems st (item :: rest)
                = processItems { st with
                    productsNotProcessed := st.productsNotProcessed ++ [q.id] } rest by
              simp [processItems, reserveStep_fail hq hqs]] at h
            obtain ⟨δP, δN, hP, hN, hmem, hchar⟩ := ih _ _ h
            refine ⟨δP, q.id :: δN, ?_, ?_, ?_, ?_⟩
            · rw [hP]
            · rw [hN]
              show st.productsNotProcessed ++ [q.id] ++ δN = _
              simp [List.append_assoc]
            · intro pid hpid
              rcases List.mem_cons.mp hpid with hhd | htl
              · subst hhd; simp [hqid]
              · simpa using Or.inr (by simpa using hmem pid htl)
            · intro hnd
              simp only [List.map_cons, List.nodup_cons] at hnd
              obtain ⟨hnd1, hnd2⟩ := hnd
              rw [List.filter_cons_of_neg (by simp [hqid])]
              rw [hchar hnd2]
              have hfc : ∀ i ∈ rest,
                  (!(δN.contains i.product)) = (!((q.id :: δN).contains i.product)) := by
                intro i hi
                have hne : i.product ≠ q.id := by
                  rw [hqid]
                  intro e
                  exact hnd1 (e ▸ List.mem_map_of_mem _ hi)
                simp [List.contains_cons, hne]
              rw [List.filter_congr hfc]
  -- end processItems_partition

/-! ### Updating one cart inside the cart collection -/

theorem find?_update_cart (carts : List Cart) (cid : Nat) (ps : List CartItem)
    (cart : Cart) (hc : carts.find? (fun c => c.id == cid) = some cart) :
    (carts.map (fun c => if c.id == cid then { c with products := ps } else c)).find?
        (fun c => c.id == cid)
      = some { cart with products := ps } := by
  rw [List.find?_map]
  have hcomp : ((fun c : Cart => c.id == cid) ∘ fun c : Cart =>
      if c.id == cid then { c with products := ps } else c)
        = fun c : Cart => c.id == cid := by
    funext c
    by_cases hb : c.id = cid
    · simp [Function.comp, hb]
    · simp [Function.comp, hb]
  rw [hcomp, hc]
  have hid : cart.id = cid := by simpa using List.find?_some hc
  simp [hid]

/-! ### Unpacking a successful purchase -/

theorem purchase_ok_spec {s : Store} {cid : Nat} {rand : ℚ} {now : Nat}
    {t : Ticket} {np : List Nat} {s' : Store} {cart : Cart}
    (hc : s.carts.find? (fun c => c.id == cid) = some cart)
    (hp : purchase s cid rand now = (.ok t np, s')) :
    ∃ (user : Nat) (st : LoopState),
      cart.user = some user ∧
      processItems ⟨s.products, 0, [], []⟩ cart.products = .ok st ∧
      t = ⟨generateUniqueCode rand, user, st.productsProcessed, st.totalAmount, now⟩ ∧
      np = st.productsNotProcessed ∧
      s' = ⟨st.products,
            s.carts.map (fun c => if c.id == cid then { c with products := cart.products.filter (fun item => st.productsNotProcessed.contains item.product) } else c),
            s.tickets ++ [t]⟩ := by
  unfold purchase at hp
  simp only [hc] at hp
  cases hu : cart.user with
  | none => simp only [hu] at hp; simp at hp
  | some user =>
      simp only [hu] at hp
      cases hpi : processItems ⟨s.products, 0, [], []⟩ cart.products with
      | error st => simp only [hpi] at hp; simp at hp
      | ok st =>
          simp only [hpi, Prod.mk.injEq, PurchaseResult.ok.injEq] at hp
          obtain ⟨⟨ht, hnp⟩, hs'⟩ := hp
          refine ⟨user, st, rfl, rfl, ht.symm, hnp.symm, ?_⟩
          rw [← hs', ht]

/-- A purchase never touches the stock of a product that none of the cart's
line items reference, whatever the outcome of the handler. -/
theorem purchase_products_untouched {s : Store} {cid : Nat} (rand : ℚ) (now : Nat)
    {pid : Nat} {cart : Cart}
    (hc : s.carts.find? (fun c => c.id == cid) = some cart)
    (hnotin : pid ∉ cart.products.map (fun i => i.product)) :
    findProduct (purchase s cid rand now).2.products pid = findProduct s.products pid := by
  unfold purchase
  simp only [hc]
  cases hu : cart.user with
  | none => rfl
  | some user =>
      cases hpi : processItems ⟨s.products, 0, [], []⟩ cart.products with
      | error st =>
          have h := processItems_untouched cart.products ⟨s.products, 0, [], []⟩ pid hnotin
          rw [hpi] at h
          simpa [resultState] using h
      | ok st =>
          have h := processItems_untouched cart.products ⟨s.products, 0, [], []⟩ pid hnotin
          rw [hpi] at h
          simpa [resultState] using h

/-! ## The claims -/

/-- C5: checkout on a cart identifier that matches no stored cart returns the
distinct not-found failure and performs no mutation at all: the store
(products, carts, tickets) is returned unchanged. -/
theorem C5_cart_not_found (s : Store) (cid : Nat) (rand : ℚ) (now : Nat)
    (h : s.carts.find? (fun c => c.id == cid) = none) :
    purchase s cid rand now = (.cartNotFound, s) := by
  unfold purchase
  rw [h]

/-- Witness for C5 at a concrete store with no cart `5`. -/
theorem C5_cart_not_found_witness :
    purchase ⟨[⟨1, 3, 10⟩], [], []⟩ 5 0 0 = (.cartNotFound, ⟨[⟨1, 3, 10⟩], [], []⟩) :=
  C5_cart_not_found ⟨[⟨1, 3, 10⟩], [], []⟩ 5 0 0 rfl

/-- C6: checkout on an existing cart with no owning-user reference returns the
distinct bad-request failure and performs no mutation: stocks, carts and the
ticket ledger are returned unchanged. -/
theorem C6_no_associated_user (s : Store) (cid : Nat) (rand : ℚ) (now : Nat)
    (cart : Cart) (hc : s.carts.find? (fun c => c.id == cid) = some cart)
    (hu : cart.user = none) :
    purchase s cid rand now = (.noAssociatedUser, s) := by
  unfold purchase
  simp only [hc, hu]

/-- Witness for C6 at a concrete store whose cart `1` has no user. -/
theorem C6_no_associated_user_witness :
    purchase ⟨[], [⟨1, none, []⟩], []⟩ 1 0 0
      = (.noAssociatedUser, ⟨[], [⟨1, none, []⟩], []⟩) :=
  C6_no_associated_user ⟨[], [⟨1, none, []⟩], []⟩ 1 0 0 ⟨1, none, []⟩ rfl rfl

/-- C3: every ticket created by checkout has `total` equal to the exact sum of
`quantity × price` over the ticket's own line items, whose prices are the ones
recorded at reservation time; the total is never derived from prices read
later. -/
theorem C3_ticket_total (s : Store) (cid : Nat) (rand : ℚ) (now : Nat)
    (t : Ticket) (np : List Nat) (s' : Store) (cart : Cart)
    (hc : s.carts.find? (fun c => c.id == cid) = some cart)
    (hp : purchase s cid rand now = (.ok t np, s')) :
    t.total = ticketSum t.products := by
  obtain ⟨user, st, hu, hpi, ht, hnp, hs'⟩ := purchase_ok_spec hc hp
  have htot := processItems_total cart.products ⟨s.products, 0, [], []⟩
  rw [hpi] at htot
  simp only [resultState] at htot
  have h0 : ticketSum ([] : List TicketItem) = 0 := rfl
  have hmain : st.totalAmount = ticketSum st.productsProcessed := by
    have : st.totalAmount - ticketSum st.productsProcessed = 0 - 0 := by
      rw [← h0]
      exact htot
    linarith
  rw [ht]
  exact hmain

/-- Witness for C3 at the spec's example scenario. -/
theorem C3_ticket_total_witness :
    (⟨"000000000", 1, [⟨1, 2, 3⟩], 6, 0⟩ : Ticket).total = ticketSum [⟨1, 2, 3⟩] :=
  C3_ticket_total ⟨[⟨1, 3, 10⟩, ⟨2, 7, 1⟩], [⟨1, some 1, [⟨1, 2⟩, ⟨2, 5⟩]⟩], []⟩ 1 0 0
    ⟨"000000000", 1, [⟨1, 2, 3⟩], 6, 0⟩ [2]
    ⟨[⟨1, 3, 8⟩, ⟨2, 7, 1⟩], [⟨1, some 1, [⟨2, 5⟩]⟩],
      [⟨"000000000", 1, [⟨1, 2, 3⟩], 6, 0⟩]⟩
    ⟨1, some 1, [⟨1, 2⟩, ⟨2, 5⟩]⟩ rfl (by with_unfolding_all decide)

/-- C2: stock safety and exact accounting over one run of the reservation
loop: (1) starting from non-negative stocks, every stock in the final state —
reached or thrown from — is non-negative; (2) the final stock of any product
equals its initial stock minus the summed quantities of exactly the successful
reservations recorded for it; (3) a failed reservation mutates nothing except
the not-processed list; (4) each single loop step preserves non-negativity of
all stocks, so stock is non-negative at every intermediate point. -/
theorem C2_stock_accounting (items : List CartItem) (ps : List Product)
    (pid : Nat) (p : Product)
    (hfind : findProduct ps pid = some p)
    (h0 : ∀ q ∈ ps, 0 ≤ q.stock) :
    (∀ q ∈ (resultState (processItems ⟨ps, 0, [], []⟩ items)).products, 0 ≤ q.stock) ∧
    findProduct (resultState (processItems ⟨ps, 0, [], []⟩ items)).products pid
      = some { p with stock := p.stock - sumQtyFor (resultState (processItems ⟨ps, 0, [], []⟩ items)).productsProcessed pid } ∧
    (∀ (st : LoopState) (item : CartItem) (q : Product),
      findProduct st.products item.product = some q → ¬ item.quantity ≤ q.stock →
        reserveStep st item
          = .ok { st with productsNotProcessed := st.productsNotProcessed ++ [q.id] }) ∧
    (∀ (st : LoopState) (item : CartItem), (∀ q ∈ st.products, 0 ≤ q.stock) →
      ∀ q ∈ (resultState (reserveStep st item)).products, 0 ≤ q.stock) := by
  refine ⟨?_, ?_, ?_, ?_⟩
  · exact processItems_nonneg items ⟨ps, 0, [], []⟩ h0
  · have hstock := processItems_stock items ⟨ps, 0, [], []⟩ pid p hfind
    simpa [sumQtyFor] using hstock
  · exact fun st item q hq hqs => reserveStep_fail hq hqs
  · exact fun st item h0' => reserveStep_nonneg h0'

/-- Witness for C2: the accounting equation at a concrete one-item run. -/
theorem C2_stock_accounting_witness :
    findProduct (resultState (processItems ⟨[⟨1, 3, 10⟩], 0, [], []⟩ [⟨1, 2⟩])).products 1
      = some ⟨1, 3, (10 : Int)
          - sumQtyFor (resultState (processItems ⟨[⟨1, 3, 10⟩], 0, [], []⟩ [⟨1, 2⟩])).productsProcessed 1⟩ :=
  (C2_stock_accounting [⟨1, 2⟩] [⟨1, 3, 10⟩] 1 ⟨1, 3, 10⟩ rfl (by decide)).2.1

/-- C10: a line item with quantity `0` always passes the reservation guard
when its product exists with non-negative stock: it is recorded as a processed
(ticketed) item, contributes exactly `0` to the running total, and leaves the
product's stock — and the not-processed list — unchanged. -/
theorem C10_zero_quantity (st : LoopState) (pid : Nat) (q : Product)
    (hq : findProduct st.products pid = some q) (h0 : 0 ≤ q.stock) :
    reserveStep st ⟨pid, 0⟩ = .ok (successState st ⟨pid, 0⟩ q) ∧
    (successState st ⟨pid, 0⟩ q).totalAmount = st.totalAmount ∧
    (successState st ⟨pid, 0⟩ q).productsProcessed
      = st.productsProcessed ++ [⟨q.id, 0, q.price⟩] ∧
    findProduct (successState st ⟨pid, 0⟩ q).products pid = some q ∧
    (successState st ⟨pid, 0⟩ q).productsNotProcessed = st.productsNotProcessed := by
  have hqid : q.id = pid := findProduct_id hq
  have hq' : findProduct st.products q.id = some q := by rw [hqid]; exact hq
  refine ⟨reserveStep_success hq h0, ?_, rfl, ?_, rfl⟩
  · show st.totalAmount + q.price * (((⟨pid, 0⟩ : CartItem).quantity : Int) : ℚ)
      = st.totalAmount
    simp
  · show findProduct
        (updateStock st.products q.id (q.stock - (⟨pid, 0⟩ : CartItem).quantity)) pid
      = some q
    rw [findProduct_updateStock, hq]
    simp

/-- C9: the spec's example scenario.  Cart `1` (user `1`) holds
`[{P1, qty 2}, {P2, qty 5}]`, `P1` has stock 10 at price 3, `P2` has stock 1
at price 7.  Checkout reserves 2 units of `P1` (stock 8), leaves `P2` at
stock 1, creates a ticket with the single line `{P1, 2, 3}` and total `6`,
leaves a residual cart holding only `{P2, qty 5}`, and returns `[P2]` as the
not-processed list. -/
theorem C9_example_scenario :
    purchase ⟨[⟨1, 3, 10⟩, ⟨2, 7, 1⟩], [⟨1, some 1, [⟨1, 2⟩, ⟨2, 5⟩]⟩], []⟩ 1 0 0
      = (.ok ⟨"000000000", 1, [⟨1, 2, 3⟩], 6, 0⟩ [2],
          ⟨[⟨1, 3, 8⟩, ⟨2, 7, 1⟩], [⟨1, some 1, [⟨2, 5⟩]⟩],
            [⟨"000000000", 1, [⟨1, 2, 3⟩], 6, 0⟩]⟩) := by
  with_unfolding_all decide

/-- C4: a line item whose product reference resolves to no product does NOT
degrade into the not-processed partition: the `else` branch reads `_id` of the
`null` snapshot and throws, so the handler answers the 500 server error and no
ticket is created (cart `1` references the absent product `2`). -/
theorem C4_missing_product_throws :
    purchase ⟨[], [⟨1, some 7, [⟨2, 3⟩]⟩], []⟩ 1 0 0
      = (.serverError, ⟨[], [⟨1, some 7, [⟨2, 3⟩]⟩], []⟩) ∧
    (purchase ⟨[], [⟨1, some 7, [⟨2, 3⟩]⟩], []⟩ 1 0 0).2.tickets = [] := by
  with_unfolding_all decide

/-- C8: ticket codes are a pure function of the `Math.random` draw and no
collision check is made against the ledger: two checkouts whose draws coincide
(both `0.5` here) put two distinct tickets with the identical code
`"I00000000"` into the ledger. -/
theorem C8_duplicate_code :
    generateUniqueCode (1 / 2) = "I00000000" ∧
    (purchase (purchase ⟨[], [⟨1, some 7, []⟩, ⟨2, some 8, []⟩], []⟩ 1 (1 / 2) 0).2
        2 (1 / 2) 1).2.tickets
      = [⟨"I00000000", 7, [], 0, 0⟩, ⟨"I00000000", 8, [], 0, 1⟩] := by
  with_unfolding_all decide

/-- C1 counterexample: a cart with two line items for the same product
(`[{P1, 2}, {P1, 5}]`, stock 2) passes both preconditions, but the residual
filter keeps every item whose product id is in the not-processed list — the
already-ticketed `{P1, 2}` included.  The pair `(1, 2)` then occurs in both
the ticket and the residual cart, so the union is not a permutation of the
original line items: conservation fails as stated. -/
theorem C1_counterexample :
    purchase ⟨[⟨1, 1, 2⟩], [⟨1, some 7, [⟨1, 2⟩, ⟨1, 5⟩]⟩], []⟩ 1 0 0
      = (.ok ⟨"000000000", 7, [⟨1, 2, 1⟩], 2, 0⟩ [1],
         ⟨[⟨1, 1, 0⟩], [⟨1, some 7, [⟨1, 2⟩, ⟨1, 5⟩]⟩],
           [⟨"000000000", 7, [⟨1, 2, 1⟩], 2, 0⟩]⟩) ∧
    ¬ List.Perm
        (([⟨1, 2, 1⟩] : List TicketItem).map (fun ti => (ti.product, ti.quantity))
          ++ ([⟨1, 2⟩, ⟨1, 5⟩] : List CartItem).map (fun i => (i.product, i.quantity)))
        (([⟨1, 2⟩, ⟨1, 5⟩] : List CartItem).map (fun i => (i.product, i.quantity))) := by
  with_unfolding_all decide

/-- C1 (amended): for every cart passing both preconditions whose line items
reference pairwise-distinct products, checkout succeeds with a residual cart
holding exactly the items whose product is in the not-processed list, and the
ticket's line items together with the residual cart's line items are a
permutation of the original cart's line items — nothing lost, nothing
duplicated. -/
theorem C1_conservation (s : Store) (cid : Nat) (rand : ℚ) (now : Nat)
    (cart : Cart) (t : Ticket) (np : List Nat) (s' : Store)
    (hc : s.carts.find? (fun c => c.id == cid) = some cart)
    (hnd : (cart.products.map (fun i => i.product)).Nodup)
    (hp : purchase s cid rand now = (.ok t np, s')) :
    s'.carts.find? (fun c => c.id == cid)
        = some { cart with products := cart.products.filter (fun i => np.contains i.product) } ∧
    List.Perm
      (t.products.map (fun ti => (ti.product, ti.quantity))
        ++ (cart.products.filter (fun i => np.contains i.product)).map
            (fun i => (i.product, i.quantity)))
      (cart.products.map (fun i => (i.product, i.quantity))) := by
  obtain ⟨user, st, hu, hpi, ht, hnp, hs'⟩ := purchase_ok_spec hc hp
  obtain ⟨δP, δN, hP, hN, hmem, hchar⟩ := processItems_partition cart.products _ _ hpi
  have hP' : st.productsProcessed = δP := by simpa using hP
  have hN' : st.productsNotProcessed = δN := by simpa using hN
  constructor
  · rw [hs', hnp]
    exact find?_update_cart s.carts cid _ cart hc
  · rw [ht]
    show List.Perm
      (st.productsProcessed.map (fun ti => (ti.product, ti.quantity))
        ++ (cart.products.filter (fun i => np.contains i.product)).map
            (fun i => (i.product, i.quantity)))
      (cart.products.map (fun i => (i.product, i.quantity)))
    rw [hnp, hP', hN', hchar hnd, ← List.map_append]
    refine List.Perm.map _ ?_
    have hperm := List.filter_append_perm
      (fun i : CartItem => !(δN.contains i.product)) cart.products
    simpa using hperm

/-- Witness for C1 at the spec's example scenario (distinct products 1, 2). -/
theorem C1_conservation_witness :
    (⟨[⟨1, 3, 8⟩, ⟨2, 7, 1⟩], [⟨1, some 1, [⟨2, 5⟩]⟩],
        [⟨"000000000", 1, [⟨1, 2, 3⟩], 6, 0⟩]⟩ : Store).carts.find? (fun c => c.id == 1)
        = some { (⟨1, some 1, [⟨1, 2⟩, ⟨2, 5⟩]⟩ : Cart) with
            products := ([⟨1, 2⟩, ⟨2, 5⟩] : List CartItem).filter
              (fun i => ([2] : List Nat).contains i.product) } ∧
    List.Perm
      ((⟨"000000000", 1, [⟨1, 2, 3⟩], 6, 0⟩ : Ticket).products.map
          (fun ti => (ti.product, ti.quantity))
        ++ (([⟨1, 2⟩, ⟨2, 5⟩] : List CartItem).filter
              (fun i => ([2] : List Nat).contains i.product)).map
            (fun i => (i.product, i.quantity)))
      (([⟨1, 2⟩, ⟨2, 5⟩] : List CartItem).map (fun i => (i.product, i.quantity))) :=
  C1_conservation ⟨[⟨1, 3, 10⟩, ⟨2, 7, 1⟩], [⟨1, some 1, [⟨1, 2⟩, ⟨2, 5⟩]⟩], []⟩ 1 0 0
    ⟨1, some 1, [⟨1, 2⟩, ⟨2, 5⟩]⟩ ⟨"000000000", 1, [⟨1, 2, 3⟩], 6, 0⟩ [2]
    ⟨[⟨1, 3, 8⟩, ⟨2, 7, 1⟩], [⟨1, some 1, [⟨2, 5⟩]⟩],
      [⟨"000000000", 1, [⟨1, 2, 3⟩], 6, 0⟩]⟩
    rfl (by decide) (by with_unfolding_all decide)

/-- C7 counterexample: with duplicate line items for one product
(`[{P1, 2}, {P1, 5}]`, stock 4), the first checkout tickets `{P1, 2}` (stock
4 → 2) yet keeps that item in the residual cart; re-running checkout on the
residual cart re-decrements `P1` from 2 to 0 although `P1` was ticketed in the
first invocation — the claim fails as stated. -/
theorem C7_counterexample :
    (purchase ⟨[⟨1, 1, 4⟩], [⟨1, some 7, [⟨1, 2⟩, ⟨1, 5⟩]⟩], []⟩ 1 0 0).1
      = .ok ⟨"000000000", 7, [⟨1, 2, 1⟩], 2, 0⟩ [1] ∧
    findProduct
        (purchase ⟨[⟨1, 1, 4⟩], [⟨1, some 7, [⟨1, 2⟩, ⟨1, 5⟩]⟩], []⟩ 1 0 0).2.products 1
      = some ⟨1, 1, 2⟩ ∧
    findProduct
        (purchase (purchase ⟨[⟨1, 1, 4⟩], [⟨1, some 7, [⟨1, 2⟩, ⟨1, 5⟩]⟩], []⟩ 1 0 0).2
          1 0 1).2.products 1
      = some ⟨1, 1, 0⟩ := by
  with_unfolding_all decide

/-- C7 (amended): for a cart whose line items reference pairwise-distinct
products, re-invoking checkout on the residual cart left by a successful first
checkout never touches the stock of any product that was ticketed in the first
invocation — satisfied items were removed entirely from the residual cart. -/
theorem C7_residual_safe (s : Store) (cid : Nat) (r1 r2 : ℚ) (n1 n2 : Nat)
    (cart : Cart) (t : Ticket) (np : List Nat) (s1 : Store)
    (hc : s.carts.find? (fun c => c.id == cid) = some cart)
    (hnd : (cart.products.map (fun i => i.product)).Nodup)
    (h1 : purchase s cid r1 n1 = (.ok t np, s1))
    (pid : Nat) (hpid : pid ∈ t.products.map (fun ti => ti.product)) :
    findProduct (purchase s1 cid r2 n2).2.products pid = findProduct s1.products pid := by
  obtain ⟨user, st, hu, hpi, ht, hnp, hs1⟩ := purchase_ok_spec hc h1
  obtain ⟨δP, δN, hP, hN, hmem, hchar⟩ := processItems_partition cart.products _ _ hpi
  have hP' : st.productsProcessed = δP := by simpa using hP
  have hN' : st.productsNotProcessed = δN := by simpa using hN
  -- the ticketed product id belongs to the kept (reserved) items, hence not to δN
  have hids : δP.map (fun ti => ti.product)
      = (cart.products.filter (fun i => !(δN.contains i.product))).map
          (fun i => i.product) := by
    have := congrArg (List.map Prod.fst) (hchar hnd)
    simpa [List.map_map, Function.comp] using this
  rw [ht] at hpid
  have hpid1 : pid ∈ st.productsProcessed.map (fun ti => ti.product) := hpid
  rw [hP', hids] at hpid1
  obtain ⟨j, hjmem, hjeq⟩ := List.mem_map.mp hpid1
  obtain ⟨hjitems, hjpred⟩ := List.mem_filter.mp hjmem
  have hjfalse : δN.contains j.product = false := by
    cases hcc : δN.contains j.product
    · rfl
    · rw [hcc] at hjpred; simp at hjpred
  have hpidN : δN.contains pid = false := hjeq ▸ hjfalse
  -- the residual cart holds only items whose product id is in δN
  have hnotin : pid ∉ (cart.products.filter
      (fun item => st.productsNotProcessed.contains item.product)).map
        (fun i => i.product) := by
    rw [hN']
    intro hmm
    obtain ⟨i, himem, hieq⟩ := List.mem_map.mp hmm
    obtain ⟨_, hipred⟩ := List.mem_filter.mp himem
    rw [hieq, hpidN] at hipred
    exact Bool.false_ne_true hipred
  have hc1 : s1.carts.find? (fun c => c.id == cid)
      = some { cart with products := cart.products.filter (fun item => st.productsNotProcessed.contains item.product) } := by
    rw [hs1]
    exact find?_update_cart s.carts cid _ cart hc
  exact purchase_products_untouched r2 n2 hc1 hnotin

/-- Witness for C7 at the spec's example scenario: product 1 was ticketed, and
the second run on the residual store leaves its snapshot unchanged. -/
theorem C7_residual_safe_witness :
    findProduct
        (purchase ⟨[⟨1, 3, 8⟩, ⟨2, 7, 1⟩], [⟨1, some 1, [⟨2, 5⟩]⟩],
            [⟨"000000000", 1, [⟨1, 2, 3⟩], 6, 0⟩]⟩ 1 0 1).2.products 1
      = findProduct (⟨[⟨1, 3, 8⟩, ⟨2, 7, 1⟩], [⟨1, some 1, [⟨2, 5⟩]⟩],
            [⟨"000000000", 1, [⟨1, 2, 3⟩], 6, 0⟩]⟩ : Store).products 1 :=
  C7_residual_safe ⟨[⟨1, 3, 10⟩, ⟨2, 7, 1⟩], [⟨1, some 1, [⟨1, 2⟩, ⟨2, 5⟩]⟩], []⟩ 1 0 0 0 1
    ⟨1, some 1, [⟨1, 2⟩, ⟨2, 5⟩]⟩ ⟨"000000000", 1, [⟨1, 2, 3⟩], 6, 0⟩ [2]
    ⟨[⟨1, 3, 8⟩, ⟨2, 7, 1⟩], [⟨1, some 1, [⟨2, 5⟩]⟩],
      [⟨"000000000", 1, [⟨1, 2, 3⟩], 6, 0⟩]⟩
    rfl (by decide) (by with_unfolding_all decide) 1 (by decide)

/-- Witness for C10: a zero-quantity item against product 1 (stock 10). -/
theorem C10_zero_quantity_witness :
    reserveStep ⟨[⟨1, 3, 10⟩], 0, [], []⟩ ⟨1, 0⟩
        = .ok (successState ⟨[⟨1, 3, 10⟩], 0, [], []⟩ ⟨1, 0⟩ ⟨1, 3, 10⟩) ∧
    (successState ⟨[⟨1, 3, 10⟩], 0, [], []⟩ ⟨1, 0⟩ ⟨1, 3, 10⟩).totalAmount
      = (⟨[⟨1, 3, 10⟩], 0, [], []⟩ : LoopState).totalAmount ∧
    (successState ⟨[⟨1, 3, 10⟩], 0, [], []⟩ ⟨1, 0⟩ ⟨1, 3, 10⟩).productsProcessed
      = (⟨[⟨1, 3, 10⟩], 0, [], []⟩ : LoopState).productsProcessed ++ [⟨1, 0, 3⟩] ∧
    findProduct (successState ⟨[⟨1, 3, 10⟩], 0, [], []⟩ ⟨1, 0⟩ ⟨1, 3, 10⟩).products 1
      = some ⟨1, 3, 10⟩ ∧
    (successState ⟨[⟨1, 3, 10⟩], 0, [], []⟩ ⟨1, 0⟩ ⟨1, 3, 10⟩).productsNotProcessed
      = (⟨[⟨1, 3, 10⟩], 0, [], []⟩ : LoopState).productsNotProcessed :=
  C10_zero_quantity ⟨[⟨1, 3, 10⟩], 0, [], []⟩ 1 ⟨1, 3, 10⟩ rfl (by decide)
